import Mathlib

/-!
# Verification of `InflationOpFrame` (owlchain/dm-core)

Shallow embedding of `src/transactions/InflationOpFrame.cpp`:
the two inflation-distribution schemes (`origInflationOpFrame`, the
legacy scheme, and `commonBudgetInflationOpFrame`, the common-budget
scheme), together with proofs of the testable properties stated in the
specification.

Machine integers are modelled as unbounded `Int`, with 64-bit wraparound
made explicit (`wrap64`) at the one spot where the source performs a raw
`int64` multiplication that can overflow (`lcl.feePool * 7`).  Fallible
paths (`throw std::runtime_error`) are modelled by a `fatal` result
constructor; the `LedgerDelta` overlay of the source means a fatal run
commits nothing, so a fatal result carries no state.
-/

/-! ## Constants (from the top of InflationOpFrame.cpp) -/

def INFLATION_FREQUENCY : Int := 60 * 5

def INFLATION_RATE_TRILLIONTHS : Int := 190721000

def TRILLION : Int := 1000000000000

def INFLATION_WIN_MIN_PERCENT : Int := 500000000

def INFLATION_NUM_WINNERS : Nat := 2000

def INFLATION_START_TIME : Int := 1404172800

/-- Largest value of a two's-complement 64-bit signed integer. -/
def INT64_MAX : Int := 9223372036854775807

/-! ## Data model -/

/-- Account identifiers; the claims never depend on their structure. -/
abbrev AccountId := Nat

/-- The account store visible through the `LedgerDelta` overlay: an
association list from account id to balance.  `loadAccount` is lookup;
`storeChange` after `addBalance` is `setBalance`. -/
abbrev Accounts := List (AccountId × Int)

/-- `AccountFrame::loadAccount`: resolve an account id to its balance,
`none` when the account does not exist. -/
def loadAccount (accts : Accounts) (a : AccountId) : Option Int :=
  (accts.find? (fun p => p.1 = a)).map Prod.snd

/-- Store an updated balance for an existing account (the combination of
`addBalance` + `storeChange` on the loaded frame).  Keys are preserved;
absent keys are not inserted. -/
def setBalance (accts : Accounts) (a : AccountId) (b : Int) : Accounts :=
  accts.map (fun p => if p.1 = a then (p.1, b) else p)

/-- One candidate produced by the vote tally
(`AccountFrame::InflationVotes`). -/
structure InflationVotes where
  mVotes : Int
  mInflationDest : AccountId
deriving DecidableEq, Repr

/-- One payout record of the operation result
(`payouts.emplace_back(dest, amount)`). -/
structure Payout where
  destination : AccountId
  amount : Int
deriving DecidableEq, Repr

/-- The ledger-header aggregates the operation reads and writes. -/
structure LedgerHeader where
  totalCoins : Int
  feePool : Int
  inflationSeq : Nat
  closeTime : Int
  ledgerVersion : Nat
deriving DecidableEq, Repr

/-- Header plus the account store, as seen through the overlay. -/
structure Ledger where
  header : LedgerHeader
  accounts : Accounts
deriving DecidableEq, Repr

/-- The observable result codes (`INFLATION_NOT_TIME` /
`INFLATION_SUCCESS` with its payout sequence). -/
inductive Outcome where
  | NotTime : Outcome
  | Success (payouts : List Payout) : Outcome
deriving DecidableEq, Repr

/-- Result of a run: either a fatal abort (`throw std::runtime_error`,
which unwinds past `inflationDelta.commit()` so nothing is committed) or
a normal outcome together with the committed ledger state. -/
inductive RunResult (α : Type) where
  | fatal (msg : String) : RunResult α
  | ok (value : α) : RunResult α
deriving DecidableEq, Repr

/-! ## External primitives, modelled from the spec -/

/-- Modelled from the spec: the SafeArithmetic primitive `bigDivide`
(its source is not under `src/`; spec §2 describes it as exact integer
multiply-then-divide with explicit rounding direction and overflow
detection).  With `ROUND_DOWN` it yields `⌊a*b/c⌋` computed exactly over
wide integers; it faults (`none`) when its preconditions
(`a ≥ 0`, `b ≥ 0`, `c > 0`) fail or the result exceeds `INT64_MAX`. -/
def bigDivide (a b c : Int) : Option Int :=
  if 0 ≤ a ∧ 0 ≤ b ∧ 0 < c ∧ a * b / c ≤ INT64_MAX then some (a * b / c)
  else none

/-- Modelled from the spec: the VoteSource enumeration contract (§4.3,
§6; `AccountFrame::processForInflation` /
`processForCommonBudgetInflation` are not under `src/`).  It produces
candidates in descending vote order, at most `maxW` of them, and the
callback in the source stops the enumeration at the first candidate
below `minB`, so the winner list is a `takeWhile` over the first `maxW`
candidates. -/
def selectWinners (cands : List InflationVotes) (minB : Int) (maxW : Nat) :
    List InflationVotes :=
  (cands.take maxW).takeWhile (fun w => minB ≤ w.mVotes)

/-- Two's-complement wraparound of a 64-bit signed integer: what an
`int64_t` multiplication actually stores when the mathematical product
leaves the representable range. -/
def wrap64 (x : Int) : Int :=
  (x + 2 ^ 63) % 2 ^ 64 - 2 ^ 63

/-! ## The winner-credit loop (shared shape of both schemes) -/

/-- The mutable state threaded through the `for (auto const& w : winners)`
loop: the account overlay, the header's `totalCoins`, the running
`leftAfterDole`, and the payout records emitted so far. -/
structure LoopState where
  accounts : Accounts
  totalCoins : Int
  leftAfterDole : Int
  payouts : List Payout
deriving DecidableEq, Repr

/-- One iteration of the winner loop.  `bumpCoins` is true exactly in the
legacy scheme on `ledgerVersion ≤ 7`, where `lcl.totalCoins` grows by each
credited payout.  A zero payout is skipped (`continue`); an unresolved
destination is skipped; an `addBalance` overflow is fatal. -/
def creditWinner (amountToDole totalVotes : Int) (bumpCoins : Bool)
    (st : LoopState) (w : InflationVotes) : RunResult LoopState :=
  match bigDivide amountToDole w.mVotes totalVotes with
  | none => .fatal "bigDivide precondition or overflow"
  | some toDoleThisWinner =>
    if toDoleThisWinner = 0 then .ok st
    else
      match loadAccount st.accounts w.mInflationDest with
      | none => .ok st
      | some bal =>
        if bal + toDoleThisWinner ≤ INT64_MAX then
          .ok { accounts := setBalance st.accounts w.mInflationDest
                  (bal + toDoleThisWinner),
                totalCoins :=
                  if bumpCoins then st.totalCoins + toDoleThisWinner
                  else st.totalCoins,
                leftAfterDole := st.leftAfterDole - toDoleThisWinner,
                payouts := st.payouts ++
                  [⟨w.mInflationDest, toDoleThisWinner⟩] }
        else .fatal "inflation overflowed destination balance"

/-- The whole winner loop, in enumeration order. -/
def processWinners (amountToDole totalVotes : Int) (bumpCoins : Bool) :
    List InflationVotes → LoopState → RunResult LoopState
  | [], st => .ok st
  | w :: ws, st =>
    match creditWinner amountToDole totalVotes bumpCoins st w with
    | .fatal m => .fatal m
    | .ok st' => processWinners amountToDole totalVotes bumpCoins ws st'

/-- Sum of the amounts of a payout sequence. -/
def payoutSum (ps : List Payout) : Int :=
  (ps.map Payout.amount).sum

/-! ## The legacy scheme: `origInflationOpFrame` -/

/-- The nominal inflation amount of the legacy scheme,
`bigDivide(totalCoins, INFLATION_RATE_TRILLIONTHS, TRILLION, ROUND_DOWN)`. -/
def legacyInflationAmount (L : Ledger) : Int :=
  L.header.totalCoins * INFLATION_RATE_TRILLIONTHS / TRILLION

/-- The eligibility deadline `INFLATION_START_TIME + seq * INFLATION_FREQUENCY`. -/
def inflationTime (L : Ledger) : Int :=
  INFLATION_START_TIME + (L.header.inflationSeq : Int) * INFLATION_FREQUENCY

/-- `InflationOpFrame::origInflationOpFrame`.  Returns the outcome and the
committed ledger; a `throw` is a `fatal` result (the overlay is discarded,
so no state is carried). -/
def origInflationOpFrame (cands : List InflationVotes) (L : Ledger) :
    RunResult (Outcome × Ledger) :=
  let lcl := L.header
  if lcl.closeTime < inflationTime L then .ok (.NotTime, L)
  else
    let totalVotes := lcl.totalCoins
    match bigDivide totalVotes INFLATION_WIN_MIN_PERCENT TRILLION with
    | none => .fatal "bigDivide precondition or overflow"
    | some minBalance =>
      let winners := selectWinners cands minBalance INFLATION_NUM_WINNERS
      match bigDivide lcl.totalCoins INFLATION_RATE_TRILLIONTHS TRILLION with
      | none => .fatal "bigDivide precondition or overflow"
      | some inflationAmount =>
        let amountToDole := inflationAmount + lcl.feePool
        let init : LoopState :=
          ⟨L.accounts, lcl.totalCoins, amountToDole, []⟩
        match processWinners amountToDole totalVotes
            (decide (lcl.ledgerVersion ≤ 7)) winners init with
        | .fatal m => .fatal m
        | .ok st =>
          .ok (.Success st.payouts,
               { header :=
                   { totalCoins :=
                       if 7 < lcl.ledgerVersion then
                         st.totalCoins + inflationAmount
                       else st.totalCoins,
                     feePool := st.leftAfterDole,
                     inflationSeq := lcl.inflationSeq + 1,
                     closeTime := lcl.closeTime,
                     ledgerVersion := lcl.ledgerVersion },
                 accounts := st.accounts })

/-! ## The common-budget scheme: `commonBudgetInflationOpFrame` -/

/-- Configuration consumed by the common-budget scheme
(`COMMON_BUDGET_INFLATION_MIN_BALANCE`, `..._MAX_ACCOUNTS`,
`..._EXCLUDED_ACCOUNTS`, `COMMON_BUDGET_ACCOUNT_ID`). -/
structure CBConfig where
  minBalance : Int
  maxWinners : Nat
  excludedAccounts : List AccountId
  commonBudgetId : AccountId
deriving DecidableEq, Repr

/-- `totalVotes` of the common-budget scheme:
`lcl.totalCoins - lcl.feePool`, then minus the balance of each excluded
account that resolves. -/
def cbTotalVotes (cfg : CBConfig) (L : Ledger) : Int :=
  cfg.excludedAccounts.foldl
    (fun tv a =>
      match loadAccount L.accounts a with
      | some bal => tv - bal
      | none => tv)
    (L.header.totalCoins - L.header.feePool)

/-- `amountToDole` of the common-budget scheme, exactly as the source
computes it: the raw `int64` expression `lcl.feePool * 7 / 10`, i.e. a
possibly wrapped 64-bit product followed by C truncating division. -/
def cbAmountToDole (feePool : Int) : Int :=
  (wrap64 (feePool * 7)).tdiv 10

/-- Everything a common-budget run produces: outcome, committed ledger,
the `amountToCommonBudget` value computed at the end of the run, and
whether the common-budget account resolved and was credited. -/
structure CBResult where
  outcome : Outcome
  ledger : Ledger
  sinkAmount : Int
  sinkCredited : Bool
deriving DecidableEq, Repr

/-- `InflationOpFrame::commonBudgetInflationOpFrame`. -/
def commonBudgetInflationOpFrame (cfg : CBConfig)
    (cands : List InflationVotes) (L : Ledger) : RunResult CBResult :=
  let lcl := L.header
  if lcl.closeTime < inflationTime L then
    .ok ⟨.NotTime, L, 0, false⟩
  else
    let totalVotes := cbTotalVotes cfg L
    let winners := selectWinners cands cfg.minBalance cfg.maxWinners
    let amountToDole := cbAmountToDole lcl.feePool
    let init : LoopState := ⟨L.accounts, lcl.totalCoins, lcl.feePool, []⟩
    match processWinners amountToDole totalVotes false winners init with
    | .fatal m => .fatal m
    | .ok st =>
      let amountToCommonBudget := st.leftAfterDole
      let header' : LedgerHeader :=
        { totalCoins := lcl.totalCoins,
          feePool := 0,
          inflationSeq := lcl.inflationSeq + 1,
          closeTime := lcl.closeTime,
          ledgerVersion := lcl.ledgerVersion }
      match loadAccount st.accounts cfg.commonBudgetId with
      | some bal =>
        if bal + amountToCommonBudget ≤ INT64_MAX then
          .ok ⟨.Success (st.payouts ++
                  [⟨cfg.commonBudgetId, amountToCommonBudget⟩]),
               { header := header',
                 accounts := setBalance st.accounts cfg.commonBudgetId
                   (bal + amountToCommonBudget) },
               amountToCommonBudget, true⟩
        else .fatal "inflation overflowed common budget account balance"
      | none =>
        .ok ⟨.Success st.payouts,
             { header := header', accounts := st.accounts },
             amountToCommonBudget, false⟩

/-! ## Concrete scenarios used by the witness theorems -/

/-- A small eligible legacy ledger: one existing account, version 8. -/
def Lw1 : Ledger := ⟨⟨1000000000000, 1000, 0, 1404172800, 8⟩, [(1, 0)]⟩

/-- The same ledger at ledger version 5 (the version-gated branch). -/
def Lw2 : Ledger := ⟨⟨1000000000000, 1000, 0, 1404172800, 5⟩, [(1, 0)]⟩

/-- One candidate holding all of the vote. -/
def candsW1 : List InflationVotes := [⟨1000000000000, 1⟩]

/-- A common-budget configuration: threshold 10, cap 5, account 3
excluded, account 9 the common-budget sink. -/
def cfgW : CBConfig := ⟨10, 5, [3], 9⟩

/-- A common-budget ledger matching the worked example of the spec
(`feePool = 1000`). -/
def LwCB : Ledger := ⟨⟨3000, 1000, 0, 1404172800, 9⟩, [(1, 50), (3, 100), (9, 7)]⟩

/-- One common-budget candidate with half of the 1900 eligible votes. -/
def candsCB : List InflationVotes := [⟨950, 1⟩]

/-- A ledger whose close time has not yet reached the third due time. -/
def LNT : Ledger := ⟨⟨1000, 10, 3, 1404172800, 9⟩, []⟩

/-- A legacy ledger whose single winner already holds `INT64_MAX`. -/
def LOV : Ledger :=
  ⟨⟨1000000000000, 1000, 0, 1404172800, 8⟩, [(1, 9223372036854775807)]⟩

/-- A common-budget ledger whose single winner already holds `INT64_MAX`. -/
def LOVCB : Ledger :=
  ⟨⟨3000, 1000, 0, 1404172800, 9⟩, [(1, 9223372036854775807), (9, 7)]⟩

/-- A common-budget ledger whose sink account already holds `INT64_MAX`. -/
def LOVS : Ledger :=
  ⟨⟨3000, 1000, 0, 1404172800, 9⟩, [(1, 50), (9, 9223372036854775807)]⟩

/-- A common-budget configuration with no excluded accounts, sink 9. -/
def cfgC6 : CBConfig := ⟨10, 5, [], 9⟩

/-- A ledger where `totalCoins = feePool`, so the common-budget
`totalVotes` is zero. -/
def LC6 : Ledger := ⟨⟨1000, 1000, 0, 1404172800, 9⟩, [(9, 5)]⟩

/-- A legacy ledger with `totalCoins = 0`, i.e. `totalVotes = 0`. -/
def LZ : Ledger := ⟨⟨0, 5, 0, 1404172800, 8⟩, []⟩

/-- A zero-vote candidate (passes the threshold 0 of `LZ`). -/
def candsZ : List InflationVotes := [⟨0, 1⟩]

/-- A candidate for the zero-`totalVotes` common-budget scenario. -/
def candsC6 : List InflationVotes := [⟨50, 1⟩]

/-- A common-budget configuration whose sink account id 77 resolves to
no account in the scenarios below (the unresolved-sink branch). -/
def cfgNS : CBConfig := ⟨10, 5, [3], 77⟩

/-! ## Loop-invariant lemmas -/

theorem payoutSum_append (ps qs : List Payout) :
    payoutSum (ps ++ qs) = payoutSum ps + payoutSum qs := by
  simp [payoutSum]

/-- Characterize a successful single-winner step: it either leaves the
state untouched (zero payout or unresolved destination) or appends one
payout record, decrements `leftAfterDole` by its amount, and bumps
`totalCoins` by it exactly when `bumpCoins` is set. -/
theorem creditWinner_ok_cases (d tv : Int) (b : Bool) (st st' : LoopState)
    (w : InflationVotes) (h : creditWinner d tv b st w = .ok st') :
    st' = st ∨
      ∃ p, st'.payouts = st.payouts ++ [⟨w.mInflationDest, p⟩] ∧
        st'.leftAfterDole = st.leftAfterDole - p ∧
        st'.totalCoins = st.totalCoins + (if b then p else 0) := by
  unfold creditWinner at h
  cases hbd : bigDivide d w.mVotes tv with
  | none => rw [hbd] at h; exact absurd h (by simp)
  | some p =>
    rw [hbd] at h
    by_cases hz : p = 0
    · simp [hz] at h
      exact Or.inl h.symm
    · simp only [if_neg hz] at h
      cases hla : loadAccount st.accounts w.mInflationDest with
      | none => rw [hla] at h; simp at h; exact Or.inl h.symm
      | some bal =>
        rw [hla] at h
        by_cases hov : bal + p ≤ INT64_MAX
        · simp only [if_pos hov] at h
          cases h
          refine Or.inr ⟨p, rfl, rfl, ?_⟩
          cases b <;> simp
        · simp [if_neg hov] at h

/-- The winner loop only appends payout records; on a normal exit
`leftAfterDole` has dropped by exactly the sum of the appended records,
and `totalCoins` has grown by that sum exactly when `bumpCoins` is set. -/
theorem processWinners_ok_spec (d tv : Int) (b : Bool)
    (ws : List InflationVotes) :
    ∀ (st st' : LoopState),
      processWinners d tv b ws st = .ok st' →
      ∃ new, st'.payouts = st.payouts ++ new ∧
        st'.leftAfterDole = st.leftAfterDole - payoutSum new ∧
        st'.totalCoins = st.totalCoins + (if b then payoutSum new else 0) := by
  induction ws with
  | nil =>
    intro st st' h
    simp [processWinners] at h
    exact ⟨[], by simp [h.symm, payoutSum]⟩
  | cons w ws ih =>
    intro st st' h
    simp only [processWinners] at h
    cases hcw : creditWinner d tv b st w with
    | fatal m => rw [hcw] at h; exact absurd h (by simp)
    | ok st₁ =>
      rw [hcw] at h
      obtain ⟨new, hp, hl, hc⟩ := ih st₁ st' h
      rcases creditWinner_ok_cases d tv b st st₁ w hcw with heq | ⟨p, hp1, hl1, hc1⟩
      · subst heq; exact ⟨new, hp, hl, hc⟩
      · refine ⟨⟨w.mInflationDest, p⟩ :: new, ?_, ?_, ?_⟩
        · rw [hp, hp1]; simp
        · rw [hl, hl1]; simp [payoutSum]; ring
        · rw [hc, hc1]
          cases b
          · simp
          · simp only [payoutSum, List.map_cons, List.sum_cons, if_true]
            ring

/-- The loop over a concatenation runs the two halves in sequence, with
fatal errors propagating. -/
theorem processWinners_append (d tv : Int) (b : Bool)
    (l₁ l₂ : List InflationVotes) :
    ∀ st, processWinners d tv b (l₁ ++ l₂) st =
      match processWinners d tv b l₁ st with
      | .fatal m => .fatal m
      | .ok st₁ => processWinners d tv b l₂ st₁ := by
  induction l₁ with
  | nil => intro st; simp [processWinners]
  | cons w ws ih =>
    intro st
    simp only [List.cons_append, processWinners]
    cases creditWinner d tv b st w with
    | fatal m => simp
    | ok st₁ => simp [ih st₁]

/-- Unpack a successful `bigDivide`: the value is the exact floor of the
wide product over the divisor, and the preconditions held. -/
theorem bigDivide_eq (a b c v : Int) (h : bigDivide a b c = some v) :
    v = a * b / c ∧ 0 ≤ a ∧ 0 ≤ b ∧ 0 < c ∧ a * b / c ≤ INT64_MAX := by
  unfold bigDivide at h
  split at h
  · next hc => cases h; exact ⟨rfl, hc.1, hc.2.1, hc.2.2.1, hc.2.2.2⟩
  · cases h


/-- Full characterization of a normal (non-fatal) legacy run: it is
either the `NotTime` short-circuit with the ledger untouched, or a
`Success` whose payouts, fee pool, total coins and sequence number come
from the winner loop exactly as the source writes them back. -/
theorem origInflation_ok_cases (cands : List InflationVotes) (L : Ledger)
    (o : Outcome) (L' : Ledger)
    (h : origInflationOpFrame cands L = .ok (o, L')) :
    (L.header.closeTime < inflationTime L ∧ o = .NotTime ∧ L' = L) ∨
    (¬ L.header.closeTime < inflationTime L ∧
      ∃ minB st,
        bigDivide L.header.totalCoins INFLATION_WIN_MIN_PERCENT TRILLION
          = some minB ∧
        bigDivide L.header.totalCoins INFLATION_RATE_TRILLIONTHS TRILLION
          = some (legacyInflationAmount L) ∧
        processWinners (legacyInflationAmount L + L.header.feePool)
          L.header.totalCoins (decide (L.header.ledgerVersion ≤ 7))
          (selectWinners cands minB INFLATION_NUM_WINNERS)
          ⟨L.accounts, L.header.totalCoins,
            legacyInflationAmount L + L.header.feePool, []⟩ = .ok st ∧
        o = .Success st.payouts ∧
        L' = ⟨⟨(if 7 < L.header.ledgerVersion
                 then st.totalCoins + legacyInflationAmount L
                 else st.totalCoins),
               st.leftAfterDole, L.header.inflationSeq + 1,
               L.header.closeTime, L.header.ledgerVersion⟩,
              st.accounts⟩) := by
  by_cases ht : L.header.closeTime < inflationTime L
  · simp only [origInflationOpFrame, if_pos ht] at h
    injection h with hpair
    injection hpair with ho hL
    subst ho; subst hL
    exact Or.inl ⟨ht, rfl, rfl⟩
  · simp only [origInflationOpFrame, if_neg ht] at h
    cases hmb : bigDivide L.header.totalCoins INFLATION_WIN_MIN_PERCENT
        TRILLION with
    | none => simp only [hmb] at h; exact absurd h (by simp)
    | some minB =>
      simp only [hmb] at h
      cases hia : bigDivide L.header.totalCoins INFLATION_RATE_TRILLIONTHS
          TRILLION with
      | none => simp only [hia] at h; exact absurd h (by simp)
      | some infl =>
        simp only [hia] at h
        have hinfl : infl = legacyInflationAmount L :=
          (bigDivide_eq _ _ _ _ hia).1
        subst hinfl
        cases hpw : processWinners
            (legacyInflationAmount L + L.header.feePool)
            L.header.totalCoins (decide (L.header.ledgerVersion ≤ 7))
            (selectWinners cands minB INFLATION_NUM_WINNERS)
            ⟨L.accounts, L.header.totalCoins,
              legacyInflationAmount L + L.header.feePool, []⟩ with
        | fatal m => simp only [hpw] at h; exact absurd h (by simp)
        | ok st =>
          simp only [hpw] at h
          injection h with hpair
          injection hpair with ho hL
          subst ho; subst hL
          exact Or.inr ⟨ht, minB, st, rfl, rfl, hpw, rfl, rfl⟩

/-- Full characterization of a normal (non-fatal) common-budget run:
either the `NotTime` short-circuit, or a `Success` built from the winner
loop, with the final `leftAfterDole` going to the common-budget account
when it resolves (appended as the last payout record) and going nowhere
when it does not. -/
theorem commonBudget_ok_cases (cfg : CBConfig) (cands : List InflationVotes)
    (L : Ledger) (r : CBResult)
    (h : commonBudgetInflationOpFrame cfg cands L = .ok r) :
    (L.header.closeTime < inflationTime L ∧ r = ⟨.NotTime, L, 0, false⟩) ∨
    (¬ L.header.closeTime < inflationTime L ∧
      ∃ st,
        processWinners (cbAmountToDole L.header.feePool) (cbTotalVotes cfg L)
          false (selectWinners cands cfg.minBalance cfg.maxWinners)
          ⟨L.accounts, L.header.totalCoins, L.header.feePool, []⟩ = .ok st ∧
        ((∃ bal, loadAccount st.accounts cfg.commonBudgetId = some bal ∧
            bal + st.leftAfterDole ≤ INT64_MAX ∧
            r = ⟨.Success (st.payouts ++
                    [⟨cfg.commonBudgetId, st.leftAfterDole⟩]),
                 ⟨⟨L.header.totalCoins, 0, L.header.inflationSeq + 1,
                   L.header.closeTime, L.header.ledgerVersion⟩,
                  setBalance st.accounts cfg.commonBudgetId
                    (bal + st.leftAfterDole)⟩,
                 st.leftAfterDole, true⟩) ∨
         (loadAccount st.accounts cfg.commonBudgetId = none ∧
            r = ⟨.Success st.payouts,
                 ⟨⟨L.header.totalCoins, 0, L.header.inflationSeq + 1,
                   L.header.closeTime, L.header.ledgerVersion⟩,
                  st.accounts⟩,
                 st.leftAfterDole, false⟩))) := by
  by_cases ht : L.header.closeTime < inflationTime L
  · simp only [commonBudgetInflationOpFrame, if_pos ht] at h
    injection h with hr
    subst hr
    exact Or.inl ⟨ht, rfl⟩
  · simp only [commonBudgetInflationOpFrame, if_neg ht] at h
    cases hpw : processWinners (cbAmountToDole L.header.feePool)
        (cbTotalVotes cfg L) false
        (selectWinners cands cfg.minBalance cfg.maxWinners)
        ⟨L.accounts, L.header.totalCoins, L.header.feePool, []⟩ with
    | fatal m => simp only [hpw] at h; exact absurd h (by simp)
    | ok st =>
      simp only [hpw] at h
      cases hla : loadAccount st.accounts cfg.commonBudgetId with
      | none =>
        simp only [hla] at h
        injection h with hr
        subst hr
        exact Or.inr ⟨ht, st, rfl, Or.inr ⟨hla, rfl⟩⟩
      | some bal =>
        simp only [hla] at h
        by_cases hov : bal + st.leftAfterDole ≤ INT64_MAX
        · rw [if_pos hov] at h
          injection h with hr
          subst hr
          exact Or.inr ⟨ht, st, rfl, Or.inl ⟨bal, hla, hov, rfl⟩⟩
        · rw [if_neg hov] at h
          exact absurd h (by simp)

/-! ## Claims -/

/-- C1: for every eligible run that returns Success, the payout amounts
and the final leftover sink account exactly for the distributable pool:
in the Legacy scheme the sum of `Success.payouts` plus the amount
re-added to `feePool` equals `amountToDole`
(`= inflationAmount + feePool` before reset); in the CommonBudget scheme
the sum of `Success.payouts` plus the final leftover sink (the
`amountToCommonBudget` value, which is zero once it has been credited
and recorded) equals the pre-reset `feePool`, exactly. -/
theorem claim_C1_pool_conservation :
    (∀ (cands : List InflationVotes) (L : Ledger) (ps : List Payout)
        (L' : Ledger),
      origInflationOpFrame cands L = .ok (.Success ps, L') →
      payoutSum ps + L'.header.feePool
        = legacyInflationAmount L + L.header.feePool) ∧
    (∀ (cfg : CBConfig) (cands : List InflationVotes) (L : Ledger)
        (r : CBResult) (ps : List Payout),
      commonBudgetInflationOpFrame cfg cands L = .ok r →
      r.outcome = .Success ps →
      payoutSum ps + (if r.sinkCredited then 0 else r.sinkAmount)
        = L.header.feePool) := by
  constructor
  · intro cands L ps L' h
    rcases origInflation_ok_cases cands L _ _ h with
      ⟨_, hNT, _⟩ | ⟨_, minB, st, _, _, hpw, ho, hL'⟩
    · simp at hNT
    · injection ho with hps
      obtain ⟨new, hp, hl, _⟩ := processWinners_ok_spec _ _ _ _ _ _ hpw
      simp only [List.nil_append] at hp
      subst hL'
      simp only []
      rw [hps, hp, hl]
      simp only [hp]
      ring
  · intro cfg cands L r ps h ho
    rcases commonBudget_ok_cases cfg cands L r h with
      ⟨_, hNT⟩ | ⟨_, st, hpw, hsink⟩
    · subst hNT; simp at ho
    · obtain ⟨new, hp, hl, _⟩ := processWinners_ok_spec _ _ _ _ _ _ hpw
      simp only [List.nil_append] at hp
      rcases hsink with ⟨bal, hla, hov, hr⟩ | ⟨hla, hr⟩
      · subst hr
        simp only [] at ho
        injection ho with hps
        subst hps
        rw [payoutSum_append, hp, hl]
        simp [payoutSum]
      · subst hr
        simp only [] at ho
        injection ho with hps
        subst hps
        rw [hp, hl]
        simp

/-- Witness for C1: the legacy scenario pays 190722000 (= inflation
amount 190721000 plus the 1000 fee pool) and leaves feePool 0; the
common-budget scenario pays 350 + 650 = 1000, the whole pre-reset pool. -/
theorem claim_C1_pool_conservation_witness :
    payoutSum [⟨1, 190722000⟩] +
        (⟨⟨1000190721000, 0, 1, 1404172800, 8⟩,
          [(1, 190722000)]⟩ : Ledger).header.feePool
      = legacyInflationAmount Lw1 + Lw1.header.feePool ∧
    payoutSum [⟨1, 350⟩, ⟨9, 650⟩] +
        (if (⟨.Success [⟨1, 350⟩, ⟨9, 650⟩],
             ⟨⟨3000, 0, 1, 1404172800, 9⟩, [(1, 400), (3, 100), (9, 657)]⟩,
             650, true⟩ : CBResult).sinkCredited then 0
         else (650 : Int))
      = LwCB.header.feePool :=
  ⟨claim_C1_pool_conservation.1 candsW1 Lw1 [⟨1, 190722000⟩]
      ⟨⟨1000190721000, 0, 1, 1404172800, 8⟩, [(1, 190722000)]⟩ (by decide),
   claim_C1_pool_conservation.2 cfgW candsCB LwCB
      ⟨.Success [⟨1, 350⟩, ⟨9, 650⟩],
       ⟨⟨3000, 0, 1, 1404172800, 9⟩, [(1, 400), (3, 100), (9, 657)]⟩,
       650, true⟩ [⟨1, 350⟩, ⟨9, 650⟩] (by decide) (by decide)⟩

/-- C2: in the Legacy scheme with `ledgerVersion ≤ 7` the new
`totalCoins` is the old value plus the sum of the payouts actually
credited; with `ledgerVersion > 7` it is the old value plus the nominal
inflation amount exactly once, regardless of payouts. -/
theorem claim_C2_totalCoins_versioning
    (cands : List InflationVotes) (L : Ledger) (ps : List Payout)
    (L' : Ledger)
    (h : origInflationOpFrame cands L = .ok (.Success ps, L')) :
    (L.header.ledgerVersion ≤ 7 →
      L'.header.totalCoins = L.header.totalCoins + payoutSum ps) ∧
    (7 < L.header.ledgerVersion →
      L'.header.totalCoins
        = L.header.totalCoins + legacyInflationAmount L) := by
  rcases origInflation_ok_cases cands L _ _ h with
    ⟨_, hNT, _⟩ | ⟨_, minB, st, _, _, hpw, ho, hL'⟩
  · simp at hNT
  · injection ho with hps
    subst hps
    obtain ⟨new, hp, _, hc⟩ := processWinners_ok_spec _ _ _ _ _ _ hpw
    simp only [List.nil_append] at hp
    subst hL'
    constructor
    · intro hv
      rw [if_neg (by omega)]
      rw [hc, hp]
      simp [decide_eq_true hv]
    · intro hv
      rw [if_pos hv, hc]
      have : decide (L.header.ledgerVersion ≤ 7) = false := by
        simp [decide_eq_false]; omega
      rw [this]
      simp

/-- Witness for C2: at ledger version 5 the scenario's totalCoins grows
by the single credited payout 190722000; at version 8 it grows by the
nominal inflation amount 190721000. -/
theorem claim_C2_totalCoins_versioning_witness :
    Lw2.header.ledgerVersion ≤ 7 ∧
    (1000190722000 : Int)
      = Lw2.header.totalCoins + payoutSum [⟨1, 190722000⟩] ∧
    7 < Lw1.header.ledgerVersion ∧
    (1000190721000 : Int)
      = Lw1.header.totalCoins + legacyInflationAmount Lw1 := by
  refine ⟨by decide, ?_, by decide, ?_⟩
  · exact (claim_C2_totalCoins_versioning candsW1 Lw2 [⟨1, 190722000⟩]
      ⟨⟨1000190722000, 0, 1, 1404172800, 5⟩, [(1, 190722000)]⟩
      (by decide)).1 (by decide)
  · exact (claim_C2_totalCoins_versioning candsW1 Lw1 [⟨1, 190722000⟩]
      ⟨⟨1000190721000, 0, 1, 1404172800, 8⟩, [(1, 190722000)]⟩
      (by decide)).2 (by decide)

/-- C3: in both schemes `NotTime` is returned iff
`closeTime < START_TIME + distributionSequence * FREQUENCY`, and in that
case the ledger (aggregates and account balances) is unchanged. -/
theorem claim_C3_not_time_gate (cands : List InflationVotes) (L : Ledger)
    (cfg : CBConfig) :
    ((L.header.closeTime < inflationTime L ↔
        ∃ L', origInflationOpFrame cands L = .ok (.NotTime, L')) ∧
      (∀ L', origInflationOpFrame cands L = .ok (.NotTime, L') → L' = L)) ∧
    ((L.header.closeTime < inflationTime L ↔
        ∃ r, commonBudgetInflationOpFrame cfg cands L = .ok r ∧
          r.outcome = .NotTime) ∧
      (∀ r, commonBudgetInflationOpFrame cfg cands L = .ok r →
        r.outcome = .NotTime → r.ledger = L)) := by
  refine ⟨⟨⟨fun ht => ⟨L, ?_⟩, ?_⟩, ?_⟩, ⟨⟨fun ht => ?_, ?_⟩, ?_⟩⟩
  · simp only [origInflationOpFrame, if_pos ht]
  · rintro ⟨L', hL'⟩
    rcases origInflation_ok_cases cands L _ _ hL' with
      ⟨ht, _, _⟩ | ⟨_, _, _, _, _, _, ho, _⟩
    · exact ht
    · simp at ho
  · intro L' hL'
    rcases origInflation_ok_cases cands L _ _ hL' with
      ⟨_, _, hL⟩ | ⟨_, _, _, _, _, _, ho, _⟩
    · exact hL
    · simp at ho
  · exact ⟨⟨.NotTime, L, 0, false⟩,
      by simp only [commonBudgetInflationOpFrame, if_pos ht], rfl⟩
  · rintro ⟨r, hr, ho⟩
    rcases commonBudget_ok_cases cfg cands L r hr with
      ⟨ht, _⟩ | ⟨_, st, _, hsink⟩
    · exact ht
    · rcases hsink with ⟨_, _, _, hreq⟩ | ⟨_, hreq⟩ <;>
        (subst hreq; simp at ho)
  · intro r hr ho
    rcases commonBudget_ok_cases cfg cands L r hr with
      ⟨_, hreq⟩ | ⟨_, st, _, hsink⟩
    · subst hreq; rfl
    · rcases hsink with ⟨_, _, _, hreq⟩ | ⟨_, hreq⟩ <;>
        (subst hreq; simp at ho)

/-- Witness for C3: the `LNT` ledger (sequence 3, due time 1404173700,
close time 1404172800) gets `NotTime` back with the ledger untouched. -/
theorem claim_C3_not_time_gate_witness :
    (∃ L', origInflationOpFrame [] LNT = .ok (.NotTime, L')) ∧
    (∀ L', origInflationOpFrame [] LNT = .ok (.NotTime, L') → L' = LNT) :=
  ⟨((claim_C3_not_time_gate [] LNT cfgW).1.1).mp (by decide),
   (claim_C3_not_time_gate [] LNT cfgW).1.2⟩

/-- A winner step whose checked balance addition would overflow is the
overflow throw. -/
theorem creditWinner_overflow (d tv : Int) (b : Bool) (st : LoopState)
    (w : InflationVotes) (p bal : Int)
    (hbd : bigDivide d w.mVotes tv = some p) (hp : p ≠ 0)
    (hla : loadAccount st.accounts w.mInflationDest = some bal)
    (hov : INT64_MAX < bal + p) :
    creditWinner d tv b st w
      = .fatal "inflation overflowed destination balance" := by
  simp only [creditWinner, hbd, hla, if_neg hp]
  rw [if_neg (not_le.mpr hov)]

/-- The winner loop aborts with the overflow throw as soon as it reaches
a winner whose credit would overflow. -/
theorem processWinners_overflow (d tv : Int) (b : Bool)
    (pre post : List InflationVotes) (w : InflationVotes)
    (init st₁ : LoopState) (p bal : Int)
    (hpre : processWinners d tv b pre init = .ok st₁)
    (hbd : bigDivide d w.mVotes tv = some p) (hp : p ≠ 0)
    (hla : loadAccount st₁.accounts w.mInflationDest = some bal)
    (hov : INT64_MAX < bal + p) :
    processWinners d tv b (pre ++ w :: post) init
      = .fatal "inflation overflowed destination balance" := by
  rw [processWinners_append]
  simp only [hpre, processWinners,
    creditWinner_overflow d tv b st₁ w p bal hbd hp hla hov]

/-- C4: a winner credit (either scheme) or the common-budget credit that
would overflow the destination's 64-bit balance makes the whole run take
the fatal throw path; it never produces a normal `Outcome` (the fatal
result is a distinct constructor from every `.ok` outcome). -/
theorem claim_C4_overflow_fatal :
    (∀ (cands : List InflationVotes) (L : Ledger) (minB infl : Int)
        (pre post : List InflationVotes) (w : InflationVotes)
        (st₁ : LoopState) (p bal : Int),
      ¬ L.header.closeTime < inflationTime L →
      bigDivide L.header.totalCoins INFLATION_WIN_MIN_PERCENT TRILLION
        = some minB →
      bigDivide L.header.totalCoins INFLATION_RATE_TRILLIONTHS TRILLION
        = some infl →
      selectWinners cands minB INFLATION_NUM_WINNERS = pre ++ w :: post →
      processWinners (infl + L.header.feePool) L.header.totalCoins
        (decide (L.header.ledgerVersion ≤ 7)) pre
        ⟨L.accounts, L.header.totalCoins, infl + L.header.feePool, []⟩
        = .ok st₁ →
      bigDivide (infl + L.header.feePool) w.mVotes L.header.totalCoins
        = some p →
      p ≠ 0 →
      loadAccount st₁.accounts w.mInflationDest = some bal →
      INT64_MAX < bal + p →
      origInflationOpFrame cands L
        = .fatal "inflation overflowed destination balance") ∧
    (∀ (cfg : CBConfig) (cands : List InflationVotes) (L : Ledger)
        (pre post : List InflationVotes) (w : InflationVotes)
        (st₁ : LoopState) (p bal : Int),
      ¬ L.header.closeTime < inflationTime L →
      selectWinners cands cfg.minBalance cfg.maxWinners = pre ++ w :: post →
      processWinners (cbAmountToDole L.header.feePool) (cbTotalVotes cfg L)
        false pre ⟨L.accounts, L.header.totalCoins, L.header.feePool, []⟩
        = .ok st₁ →
      bigDivide (cbAmountToDole L.header.feePool) w.mVotes
        (cbTotalVotes cfg L) = some p →
      p ≠ 0 →
      loadAccount st₁.accounts w.mInflationDest = some bal →
      INT64_MAX < bal + p →
      commonBudgetInflationOpFrame cfg cands L
        = .fatal "inflation overflowed destination balance") ∧
    (∀ (cfg : CBConfig) (cands : List InflationVotes) (L : Ledger)
        (st : LoopState) (bal : Int),
      ¬ L.header.closeTime < inflationTime L →
      processWinners (cbAmountToDole L.header.feePool) (cbTotalVotes cfg L)
        false (selectWinners cands cfg.minBalance cfg.maxWinners)
        ⟨L.accounts, L.header.totalCoins, L.header.feePool, []⟩ = .ok st →
      loadAccount st.accounts cfg.commonBudgetId = some bal →
      INT64_MAX < bal + st.leftAfterDole →
      commonBudgetInflationOpFrame cfg cands L
        = .fatal "inflation overflowed common budget account balance") := by
  refine ⟨?_, ?_, ?_⟩
  · intro cands L minB infl pre post w st₁ p bal ht hmb hia hsel hpre hbd hp
      hla hov
    simp only [origInflationOpFrame, if_neg ht, hmb, hia, hsel,
      processWinners_overflow _ _ _ pre post w _ st₁ p bal hpre hbd hp hla hov]
  · intro cfg cands L pre post w st₁ p bal ht hsel hpre hbd hp hla hov
    simp only [commonBudgetInflationOpFrame, if_neg ht, hsel,
      processWinners_overflow _ _ _ pre post w _ st₁ p bal hpre hbd hp hla hov]
  · intro cfg cands L st bal ht hpw hla hov
    simp only [commonBudgetInflationOpFrame, if_neg ht, hpw, hla]
    rw [if_neg (not_le.mpr hov)]

/-- Witness for C4: three concrete runs — a legacy winner at
`INT64_MAX`, a common-budget winner at `INT64_MAX`, and a common-budget
sink account at `INT64_MAX` — all abort fatally. -/
theorem claim_C4_overflow_fatal_witness :
    origInflationOpFrame candsW1 LOV
      = .fatal "inflation overflowed destination balance" ∧
    commonBudgetInflationOpFrame cfgW candsCB LOVCB
      = .fatal "inflation overflowed destination balance" ∧
    commonBudgetInflationOpFrame cfgW candsCB LOVS
      = .fatal "inflation overflowed common budget account balance" :=
  ⟨claim_C4_overflow_fatal.1 candsW1 LOV 500000000 190721000 [] []
      ⟨1000000000000, 1⟩
      ⟨[(1, 9223372036854775807)], 1000000000000, 190722000, []⟩
      190722000 9223372036854775807 (by decide) (by decide) (by decide)
      (by decide) (by decide) (by decide) (by decide) (by decide) (by decide),
   claim_C4_overflow_fatal.2.1 cfgW candsCB LOVCB [] [] ⟨950, 1⟩
      ⟨[(1, 9223372036854775807), (9, 7)], 3000, 1000, []⟩
      332 9223372036854775807 (by decide) (by decide) (by decide)
      (by decide) (by decide) (by decide) (by decide),
   claim_C4_overflow_fatal.2.2 cfgW candsCB LOVS
      ⟨[(1, 382), (9, 9223372036854775807)], 3000, 668, [⟨1, 332⟩]⟩
      9223372036854775807 (by decide) (by decide) (by decide) (by decide)⟩

/-- C5: a winner's payout is `⌊amountToDole * votes / totalVotes⌋`,
computed by the exact wide multiply-then-divide primitive; it is never
negative; and a winner whose payout is zero is skipped entirely — the
loop step leaves the state (payout records, balances, remainder)
untouched. -/
theorem claim_C5_payout_formula (d tv : Int) (b : Bool) (st : LoopState)
    (w : InflationVotes)
    (hd : 0 ≤ d) (hv : 0 ≤ w.mVotes) (htv : 0 < tv)
    (hmax : d * w.mVotes / tv ≤ INT64_MAX) :
    bigDivide d w.mVotes tv = some (d * w.mVotes / tv) ∧
    0 ≤ d * w.mVotes / tv ∧
    (d * w.mVotes / tv = 0 → creditWinner d tv b st w = .ok st) := by
  have hbd : bigDivide d w.mVotes tv = some (d * w.mVotes / tv) := by
    unfold bigDivide
    rw [if_pos ⟨hd, hv, htv, hmax⟩]
  refine ⟨hbd, Int.ediv_nonneg (mul_nonneg hd hv) htv.le, fun hz => ?_⟩
  simp only [creditWinner, hbd, if_pos hz]

/-- Witness for C5: with `amountToDole = 0` every payout is
`⌊0·5/10⌋ = 0` and the step is a no-op on a concrete state. -/
theorem claim_C5_payout_formula_witness :
    bigDivide 0 5 10 = some 0 ∧
    creditWinner 0 10 false ⟨[(1, 3)], 0, 0, []⟩ ⟨5, 1⟩
      = .ok ⟨[(1, 3)], 0, 0, []⟩ := by
  have h := claim_C5_payout_formula 0 10 false ⟨[(1, 3)], 0, 0, []⟩ ⟨5, 1⟩
    (by decide) (by decide) (by decide) (by decide)
  exact ⟨by simpa using h.1, h.2.2 (by decide)⟩

/-- Counterexample to C6: with `totalCoins = feePool` the common-budget
`totalVotes` is 0, yet the run (no candidate passes the filter) is not
rejected: it returns the ordinary `Success` outcome, increments the
sequence number and credits the whole fee pool to the sink account. -/
theorem claim_C6_counterexample :
    cbTotalVotes cfgC6 LC6 ≤ 0 ∧
    commonBudgetInflationOpFrame cfgC6 [] LC6 =
      .ok ⟨.Success [⟨9, 1000⟩], ⟨⟨1000, 0, 1, 1404172800, 9⟩, [(9, 1005)]⟩,
           1000, true⟩ := by
  exact ⟨by decide, by decide⟩

/-- A winner step with non-positive `totalVotes` violates the division
primitive's precondition and is fatal. -/
theorem creditWinner_nonpos_votes (d tv : Int) (b : Bool) (st : LoopState)
    (w : InflationVotes) (htv : tv ≤ 0) :
    creditWinner d tv b st w
      = .fatal "bigDivide precondition or overflow" := by
  have hbd : bigDivide d w.mVotes tv = none := by
    unfold bigDivide
    rw [if_neg]
    rintro ⟨_, _, hc, _⟩
    omega
  simp only [creditWinner, hbd]

/-- C6 as amended: a run with `totalVotes ≤ 0` faults (fatally, before
any commit) only when the winner loop actually divides, i.e. when at
least one winner was enumerated; with no winners the run completes as an
ordinary `Success` (see the counterexample). -/
theorem claim_C6_amended_nonpos_votes :
    (∀ (cands : List InflationVotes) (L : Ledger) (w : InflationVotes)
        (ws : List InflationVotes),
      ¬ L.header.closeTime < inflationTime L →
      L.header.totalCoins = 0 →
      selectWinners cands 0 INFLATION_NUM_WINNERS = w :: ws →
      origInflationOpFrame cands L
        = .fatal "bigDivide precondition or overflow") ∧
    (∀ (cfg : CBConfig) (cands : List InflationVotes) (L : Ledger)
        (w : InflationVotes) (ws : List InflationVotes),
      ¬ L.header.closeTime < inflationTime L →
      cbTotalVotes cfg L ≤ 0 →
      selectWinners cands cfg.minBalance cfg.maxWinners = w :: ws →
      commonBudgetInflationOpFrame cfg cands L
        = .fatal "bigDivide precondition or overflow") := by
  constructor
  · intro cands L w ws ht h0 hsel
    have hmb : bigDivide 0 INFLATION_WIN_MIN_PERCENT TRILLION
        = some 0 := by decide
    have hia : bigDivide 0 INFLATION_RATE_TRILLIONTHS TRILLION
        = some 0 := by decide
    simp only [origInflationOpFrame, if_neg ht, h0, hmb, hia, hsel,
      processWinners, creditWinner_nonpos_votes _ 0 _ _ w le_rfl]
  · intro cfg cands L w ws ht htv hsel
    simp only [commonBudgetInflationOpFrame, if_neg ht, hsel, processWinners,
      creditWinner_nonpos_votes _ _ false _ w htv]

/-- Witness for the amended C6: a zero-`totalVotes` legacy ledger and a
zero-`totalVotes` common-budget ledger, each with one enumerated winner,
both abort fatally at the division primitive. -/
theorem claim_C6_amended_nonpos_votes_witness :
    origInflationOpFrame candsZ LZ
      = .fatal "bigDivide precondition or overflow" ∧
    commonBudgetInflationOpFrame cfgC6 candsC6 LC6
      = .fatal "bigDivide precondition or overflow" :=
  ⟨claim_C6_amended_nonpos_votes.1 candsZ LZ ⟨0, 1⟩ [] (by decide)
      (by decide) (by decide),
   claim_C6_amended_nonpos_votes.2 cfgC6 candsC6 LC6 ⟨50, 1⟩ [] (by decide)
      (by decide) (by decide)⟩

/-- C7: a common-budget run never modifies `totalCoins`; when the sink
account resolves it is credited exactly the pre-reset `feePool` minus
the winner payouts (recorded as the final payout entry); and when the
sink account does not resolve the run still completes as a normal
`Success` (no error) whose payouts are exactly the winner records — the
leftover `feePool − Σ winner payouts` appears in no payout record and
the final account store is exactly the winner-loop store, so that
amount is credited nowhere and nothing else is mutated. -/
theorem claim_C7_common_budget_frame :
    (∀ (cfg : CBConfig) (cands : List InflationVotes) (L : Ledger)
        (r : CBResult),
      commonBudgetInflationOpFrame cfg cands L = .ok r →
      r.ledger.header.totalCoins = L.header.totalCoins) ∧
    (∀ (cfg : CBConfig) (cands : List InflationVotes) (L : Ledger)
        (r : CBResult) (ps : List Payout),
      commonBudgetInflationOpFrame cfg cands L = .ok r →
      r.outcome = .Success ps →
      r.sinkCredited = true →
      ∃ ws, ps = ws ++ [⟨cfg.commonBudgetId, r.sinkAmount⟩] ∧
        r.sinkAmount = L.header.feePool - payoutSum ws) ∧
    (∀ (cfg : CBConfig) (cands : List InflationVotes) (L : Ledger)
        (st : LoopState),
      ¬ L.header.closeTime < inflationTime L →
      processWinners (cbAmountToDole L.header.feePool) (cbTotalVotes cfg L)
        false (selectWinners cands cfg.minBalance cfg.maxWinners)
        ⟨L.accounts, L.header.totalCoins, L.header.feePool, []⟩ = .ok st →
      loadAccount st.accounts cfg.commonBudgetId = none →
      commonBudgetInflationOpFrame cfg cands L
        = .ok ⟨.Success st.payouts,
               ⟨⟨L.header.totalCoins, 0, L.header.inflationSeq + 1,
                 L.header.closeTime, L.header.ledgerVersion⟩, st.accounts⟩,
               st.leftAfterDole, false⟩ ∧
      st.leftAfterDole = L.header.feePool - payoutSum st.payouts) := by
  refine ⟨?_, ?_, ?_⟩
  · intro cfg cands L r h
    rcases commonBudget_ok_cases cfg cands L r h with
      ⟨_, hr⟩ | ⟨_, st, hpw, hsink⟩
    · subst hr; rfl
    · rcases hsink with ⟨bal, hla, hov, hr⟩ | ⟨hla, hr⟩ <;> subst hr <;> rfl
  · intro cfg cands L r ps h hps hc
    rcases commonBudget_ok_cases cfg cands L r h with
      ⟨_, hr⟩ | ⟨_, st, hpw, hsink⟩
    · subst hr; simp at hps
    · obtain ⟨new, hp, hl, _⟩ := processWinners_ok_spec _ _ _ _ _ _ hpw
      simp only [List.nil_append] at hp
      rcases hsink with ⟨bal, hla, hov, hr⟩ | ⟨hla, hr⟩
      · subst hr
        simp only [] at hps
        injection hps with hps'
        exact ⟨st.payouts, hps'.symm, by rw [hl, hp]⟩
      · subst hr; simp at hc
  · intro cfg cands L st ht hpw hla
    obtain ⟨new, hp, hl, _⟩ := processWinners_ok_spec _ _ _ _ _ _ hpw
    simp only [List.nil_append] at hp
    constructor
    · simp only [commonBudgetInflationOpFrame, if_neg ht, hpw, hla]
    · rw [hl, hp]

/-- Witness for C7: the worked scenario leaves `totalCoins = 3000`
untouched and ends with the sink entry `⟨9, 650⟩ = 1000 − 350`; the same
ledger under `cfgNS` (sink id 77, which resolves to no account) still
returns a normal `Success` whose only payout is the winner record
`⟨1, 350⟩`, with the leftover 650 credited nowhere and the account store
exactly the winner-loop store. -/
theorem claim_C7_common_budget_frame_witness :
    (3000 : Int) = LwCB.header.totalCoins ∧
    (∃ ws, [(⟨1, 350⟩ : Payout), ⟨9, 650⟩] = ws ++ [⟨9, (650 : Int)⟩] ∧
      (650 : Int) = LwCB.header.feePool - payoutSum ws) ∧
    (commonBudgetInflationOpFrame cfgNS candsCB LwCB
        = .ok ⟨.Success [⟨1, 350⟩],
               ⟨⟨3000, 0, 1, 1404172800, 9⟩, [(1, 400), (3, 100), (9, 7)]⟩,
               650, false⟩ ∧
      (650 : Int) = LwCB.header.feePool - payoutSum [⟨1, 350⟩]) :=
  ⟨claim_C7_common_budget_frame.1 cfgW candsCB LwCB
      ⟨.Success [⟨1, 350⟩, ⟨9, 650⟩],
       ⟨⟨3000, 0, 1, 1404172800, 9⟩, [(1, 400), (3, 100), (9, 657)]⟩,
       650, true⟩ (by decide),
   claim_C7_common_budget_frame.2.1 cfgW candsCB LwCB
      ⟨.Success [⟨1, 350⟩, ⟨9, 650⟩],
       ⟨⟨3000, 0, 1, 1404172800, 9⟩, [(1, 400), (3, 100), (9, 657)]⟩,
       650, true⟩ [⟨1, 350⟩, ⟨9, 650⟩] (by decide) (by decide) (by decide),
   claim_C7_common_budget_frame.2.2 cfgNS candsCB LwCB
      ⟨[(1, 400), (3, 100), (9, 7)], 3000, 650, [⟨1, 350⟩]⟩
      (by decide) (by decide) (by decide)⟩

/-- C9: in both schemes `distributionSequence` (`inflationSeq`)
increments by exactly 1 on `Success` and is unchanged on `NotTime`. -/
theorem claim_C9_sequence_increment :
    (∀ (cands : List InflationVotes) (L : Ledger) (o : Outcome)
        (L' : Ledger),
      origInflationOpFrame cands L = .ok (o, L') →
      (o = .NotTime → L'.header.inflationSeq = L.header.inflationSeq) ∧
      (∀ ps, o = .Success ps →
        L'.header.inflationSeq = L.header.inflationSeq + 1)) ∧
    (∀ (cfg : CBConfig) (cands : List InflationVotes) (L : Ledger)
        (r : CBResult),
      commonBudgetInflationOpFrame cfg cands L = .ok r →
      (r.outcome = .NotTime →
        r.ledger.header.inflationSeq = L.header.inflationSeq) ∧
      (∀ ps, r.outcome = .Success ps →
        r.ledger.header.inflationSeq = L.header.inflationSeq + 1)) := by
  constructor
  · intro cands L o L' h
    rcases origInflation_ok_cases cands L _ _ h with
      ⟨_, ho, hL⟩ | ⟨_, minB, st, _, _, _, ho, hL⟩
    · subst ho; subst hL
      exact ⟨fun _ => rfl, fun ps hps => by simp at hps⟩
    · subst ho; subst hL
      exact ⟨fun hps => by simp at hps, fun ps _ => rfl⟩
  · intro cfg cands L r h
    rcases commonBudget_ok_cases cfg cands L r h with
      ⟨_, hr⟩ | ⟨_, st, hpw, hsink⟩
    · subst hr
      exact ⟨fun _ => rfl, fun ps hps => by simp at hps⟩
    · rcases hsink with ⟨bal, hla, hov, hr⟩ | ⟨hla, hr⟩ <;> subst hr <;>
        exact ⟨fun hps => by simp at hps, fun ps _ => rfl⟩

/-- Witness for C9: the `NotTime` run keeps sequence 3; the eligible
legacy run moves sequence 0 to 1. -/
theorem claim_C9_sequence_increment_witness :
    (⟨⟨1000, 10, 3, 1404172800, 9⟩, []⟩ : Ledger).header.inflationSeq
      = LNT.header.inflationSeq ∧
    (⟨⟨1000190721000, 0, 1, 1404172800, 8⟩,
      [(1, 190722000)]⟩ : Ledger).header.inflationSeq
      = Lw1.header.inflationSeq + 1 :=
  ⟨(claim_C9_sequence_increment.1 [] LNT .NotTime
      ⟨⟨1000, 10, 3, 1404172800, 9⟩, []⟩ (by decide)).1 rfl,
   (claim_C9_sequence_increment.1 candsW1 Lw1 (.Success [⟨1, 190722000⟩])
      ⟨⟨1000190721000, 0, 1, 1404172800, 8⟩, [(1, 190722000)]⟩
      (by decide)).2 [⟨1, 190722000⟩] rfl⟩

/-- C10: when the common-budget account resolves, its credit is appended
to `Success.payouts` as the final entry, after the per-winner records. -/
theorem claim_C10_sink_is_last_payout (cfg : CBConfig)
    (cands : List InflationVotes) (L : Ledger) (r : CBResult)
    (h : commonBudgetInflationOpFrame cfg cands L = .ok r)
    (hc : r.sinkCredited = true) :
    ∃ ws, r.outcome
      = .Success (ws ++ [⟨cfg.commonBudgetId, r.sinkAmount⟩]) := by
  rcases commonBudget_ok_cases cfg cands L r h with
    ⟨_, hr⟩ | ⟨_, st, hpw, hsink⟩
  · subst hr; simp at hc
  · rcases hsink with ⟨bal, hla, hov, hr⟩ | ⟨hla, hr⟩
    · subst hr; exact ⟨st.payouts, rfl⟩
    · subst hr; simp at hc

/-- Witness for C10: in the worked scenario the payouts end with the
sink entry `⟨9, 650⟩`. -/
theorem claim_C10_sink_is_last_payout_witness :
    ∃ ws, (Outcome.Success [⟨1, 350⟩, ⟨9, 650⟩])
      = .Success (ws ++ [⟨cfgW.commonBudgetId, (650 : Int)⟩]) :=
  claim_C10_sink_is_last_payout cfgW candsCB LwCB
    ⟨.Success [⟨1, 350⟩, ⟨9, 650⟩],
     ⟨⟨3000, 0, 1, 1404172800, 9⟩, [(1, 400), (3, 100), (9, 657)]⟩,
     650, true⟩ (by decide) (by decide)

/-- Counterexample to C8: at `feePool = 2^61` (a representable `int64`
value) the raw `int64` product `feePool * 7` wraps around, so the
computed `amountToDole` is negative and differs from the exact
`⌊feePool * 7 / 10⌋`. -/
theorem claim_C8_counterexample :
    cbAmountToDole 2305843009213693952
      ≠ 2305843009213693952 * 7 / 10 ∧
    cbAmountToDole 2305843009213693952 < 0 := by
  exact ⟨by decide, by decide⟩

/-- The excluded-accounts fold of the common-budget scheme is the
closed-form difference: start minus the balances of those excluded
accounts that resolve. -/
theorem cbTotalVotes_eq (cfg : CBConfig) (L : Ledger) :
    cbTotalVotes cfg L = L.header.totalCoins - L.header.feePool -
      ((cfg.excludedAccounts.filterMap (loadAccount L.accounts)).sum) := by
  unfold cbTotalVotes
  generalize L.header.totalCoins - L.header.feePool = init
  induction cfg.excludedAccounts generalizing init with
  | nil => simp
  | cons a as ih =>
    simp only [List.foldl_cons, List.filterMap_cons]
    cases h : loadAccount L.accounts a with
    | none => simp only [h]; rw [ih]
    | some bal =>
      simp only [h]
      rw [ih]
      simp only [List.sum_cons]
      ring

/-- A 64-bit value within range is its own wraparound. -/
theorem wrap64_eq_self (x : Int) (h1 : -9223372036854775808 ≤ x)
    (h2 : x < 9223372036854775808) : wrap64 x = x := by
  unfold wrap64
  rw [Int.emod_eq_of_lt (by omega) (by omega)]
  omega

/-- C8 as amended: `totalVotes` is
`totalCoins - feePool - Σ (balances of resolving excluded accounts)` as
claimed, but `amountToDole` equals the exact `⌊feePool * 7 / 10⌋` only
while the `int64` product does not overflow, i.e. for
`7 * feePool ≤ INT64_MAX`; beyond that the product wraps (see the
counterexample). -/
theorem claim_C8_amended_scheme_params :
    (∀ (cfg : CBConfig) (L : Ledger),
      cbTotalVotes cfg L = L.header.totalCoins - L.header.feePool -
        ((cfg.excludedAccounts.filterMap (loadAccount L.accounts)).sum)) ∧
    (∀ feePool : Int, 0 ≤ feePool → 7 * feePool ≤ INT64_MAX →
      cbAmountToDole feePool = feePool * 7 / 10) := by
  constructor
  · exact cbTotalVotes_eq
  · intro f h0 h7
    have h7' : 7 * f ≤ 9223372036854775807 := h7
    unfold cbAmountToDole
    rw [wrap64_eq_self (f * 7) (by omega) (by omega)]
    exact Int.tdiv_eq_ediv (by omega) (by omega)

/-- Witness for the amended C8: the worked scenario has
`totalVotes = 3000 - 1000 - 100 = 1900` and
`amountToDole = ⌊1000·7/10⌋ = 700`. -/
theorem claim_C8_amended_scheme_params_witness :
    cbTotalVotes cfgW LwCB = LwCB.header.totalCoins - LwCB.header.feePool -
      ((cfgW.excludedAccounts.filterMap (loadAccount LwCB.accounts)).sum) ∧
    cbAmountToDole 1000 = 1000 * 7 / 10 :=
  ⟨claim_C8_amended_scheme_params.1 cfgW LwCB,
   claim_C8_amended_scheme_params.2 1000 (by decide) (by decide)⟩
